import Mathlib

/-!
Verification of the curcuma conformer-scanner / MD core against its
natural-language specification.  The C++ sources are shallowly embedded
over `ℚ` (IEEE doubles are modelled as exact rationals, a standard
idealisation; the code paths verified here use only +, -, *, /, abs and
comparisons, which `ℚ` represents exactly).  Flattened `double*` arrays of
length `3N` are modelled as functions `ℕ → ℚ`, matrices of per-atom data as
functions indexed the same way the C++ indexes `Eigen::VectorXd::data()`.
-/

namespace Curcuma

/-! ### Assignment cost kernel (rmsd.h, RMSDDriver::Cost) -/

/-- Transcription of `RMSDDriver::Cost` (rmsd.h:287-303): the assignment
cost kernel, selected by the integer `costmatrix`. -/
def Cost (distance norm : ℚ) (costmatrix : ℤ) : ℚ :=
  if costmatrix = 1 then distance * distance
  else if costmatrix = 2 then distance
  else if costmatrix = 3 then distance + norm
  else if costmatrix = 4 then distance * distance + norm * norm
  else if costmatrix = 5 then distance * norm
  else if costmatrix = 6 then distance * distance * norm * norm
  else distance * distance

/-! ### Reorder-rule cache (confscan.cpp) -/

/-- Transcription of `ConfScan::AddRules` (confscan.cpp:1475-1484).
Returns the updated cache and the C++ return value.  An empty rule or the
`m_skip_orders` flag aborts the insertion; otherwise the rule is appended
only when it is not yet present. -/
def AddRules (cache : List (List ℤ)) (rules : List ℤ) (skip_orders : Bool) :
    List (List ℤ) × Bool :=
  if rules.length = 0 ∨ skip_orders = true then (cache, false)
  else if rules ∈ cache then (cache, true)
  else (cache ++ [rules], true)

/-- Transcription of the rule-restoring loop of
`ConfScan::LoadRestartInformation` (confscan.cpp:555-559): each cached rule
from the restart file is appended only when absent. -/
def LoadRestartRules (cache : List (List ℤ)) (restored : List (List ℤ)) :
    List (List ℤ) :=
  restored.foldl (fun acc v => if v ∈ acc then acc else acc ++ [v]) cache

/-! ### Kinetic energy and temperature (simplemd.cpp) -/

/-- Transcription of the mass layout built in `SimpleMD::Initialise`
(simplemd.cpp:591-597, 609-620): `m_eigen_masses` has length `3N`, and the
mass of atom `i` is written to the three slots `3i`, `3i+1`, `3i+2`.
Hence slot `k` holds the mass of atom `k / 3`. -/
def massArray (m : ℕ → ℚ) : ℕ → ℚ := fun k => m (k / 3)

/-- Transcription of `SimpleMD::EKin` (simplemd.cpp:2876-2885) and of the
identical inline loops in `Verlet` and `Rattle`: the code reads the mass
factor for atom `i` as `m_eigen_masses.data()[i]`, i.e. at flat index `i`
of the length-`3N` array `massdata`. -/
def ekinCode (n : ℕ) (massdata v : ℕ → ℚ) : ℚ :=
  (1/2) * Finset.sum (Finset.range n) (fun i =>
    massdata i * (v (3*i) * v (3*i) + v (3*i+1) * v (3*i+1) + v (3*i+2) * v (3*i+2)))

/-- The specification formula E_kin = ½ Σ mᵢ vᵢ², each atom weighted by its
own mass `m i`. -/
def ekinSpec (n : ℕ) (m v : ℕ → ℚ) : ℚ :=
  (1/2) * Finset.sum (Finset.range n) (fun i =>
    m i * (v (3*i) * v (3*i) + v (3*i+1) * v (3*i+1) + v (3*i+2) * v (3*i+2)))

/-- Transcription of the temperature assignment `m_T = 2.0 * ekin / (kb_Eh * m_dof)`
(simplemd.cpp:2884 and the analogous lines in `Verlet` and `Rattle`). -/
def tempOf (kb : ℚ) (dof : ℕ) (ekin : ℚ) : ℚ := 2 * ekin / (kb * dof)

/-- Mass table of the failing input: atom 0 has mass 1, atom 1 has mass 2. -/
def massBug : ℕ → ℚ := fun i => if i = 0 then 1 else 2

/-- Velocity table of the failing input: atom 0 at rest, atom 1 moving with
velocity (1,0,0). -/
def veloBug : ℕ → ℚ := fun k => if k = 3 then 1 else 0

/-! ### Verlet instability flag (simplemd.cpp, SimpleMD::Verlet) -/

/-- Transcription of the tail of `SimpleMD::Verlet` (simplemd.cpp:1747-1761):
the second velocity half-kick, the kinetic-energy loop (with the flat mass
indexing of the source), the temperature, and the instability flag
`m_unstable = T > 10000 * m_T` where `m_T` still holds the temperature
`Tprev` computed after the first half-kick (line 1713).  The `std::isnan(T)`
disjunct has no counterpart over `ℚ`, which has no NaN; on NaN-free states
it is false in the source as well.  Returns `(T, m_unstable)`. -/
def verletSecondHalf (n : ℕ) (massdata v g invm : ℕ → ℚ) (dT kb : ℚ)
    (dof : ℕ) (Tprev : ℚ) : ℚ × Bool :=
  let vNew := fun k => v k - (1/2) * dT * g k * invm k
  let T := tempOf kb dof (ekinCode n massdata vNew)
  (T, decide (T > 10000 * Tprev))

/-! ### RMSD metadynamics deposition (simplemd.cpp, SimpleMD::ApplyRMSDMTD) -/

/-- Transcription of the deposition logic of `SimpleMD::ApplyRMSDMTD`
(simplemd.cpp:2316-2325 and 2389-2395): when no structure is stored yet, a
seed structure is deposited into worker slot 0 unconditionally; afterwards,
in the same call, a structure is deposited into slot
`count % nworkers` exactly when `current_bias * m_rmsd_econv < m_bias_structure_count`
and `m_rmsd_fix_structure == false`.  Returns the worker slots that
received a deposit during the call and the new structure count. -/
def mtdDeposit (count : ℕ) (bias econv : ℚ) (fix : Bool) (nworkers : ℕ) :
    List ℕ × ℕ :=
  let seed : List ℕ := if count = 0 then [0] else []
  let c1 : ℕ := if count = 0 then 1 else count
  if bias * econv < (c1 : ℚ) ∧ fix = false then
    (seed ++ [c1 % nworkers], c1 + 1)
  else
    (seed, c1)

/-- Transcription of the call-site guard in `SimpleMD::Verlet`
(simplemd.cpp:1717-1721): `ApplyRMSDMTD` runs only when
`m_step % m_mtd_steps == 0`. -/
def mtdStep (step mtd_steps : ℕ) (count : ℕ) (bias econv : ℚ) (fix : Bool)
    (nworkers : ℕ) : List ℕ × ℕ :=
  if step % mtd_steps = 0 then mtdDeposit count bias econv fix nworkers
  else ([], count)

/-! ### RMSD metadynamics bias energy (simplemd.cpp, BiasThread::execute) -/

/-- One deposited bias structure, as iterated over by `BiasThread::execute`
(simplemd.cpp:86-134): the best-fit RMSD of the current geometry against
this structure (computed by the out-of-scope RMSD driver and taken here as
data), the visit counter, the accumulated energy and the well-tempering
factor. -/
structure BiasStructure where
  rmsd : ℚ
  counter : ℕ
  energy : ℚ
  factor : ℚ
deriving DecidableEq

/-- Transcription of one iteration of the loop in `BiasThread::execute`
(simplemd.cpp:86-134).  `gauss` stands for the real exponential function
`exp`; the code calls it on `-rmsd*rmsd*m_alpha` (line 91) and, in the
well-tempered branch, on `-energy/kb_Eh/m_DT` (line 98).  Returns the
contribution `bias_energy * factor * m_k` added to `m_current_bias`
(lines 107-109) together with the updated structure record (counter and
energy bumped when `expr * m_rmsd_econv > 1 * size`, lines 103-106). -/
def biasStep (k dT alpha econv DTwt kbq : ℚ) (wtmtd : Bool) (gauss : ℚ → ℚ)
    (size : ℕ) (s : BiasStructure) : ℚ × BiasStructure :=
  let expr := gauss (-(s.rmsd * s.rmsd) * alpha)
  let bias_energy := expr * dT
  let factor := if wtmtd = false then (s.counter : ℚ)
    else s.factor + gauss (-s.energy / kbq / DTwt)
  let visited := decide (expr * econv > 1 * (size : ℚ))
  (bias_energy * factor * k,
   { s with factor := factor,
            counter := if visited then s.counter + 1 else s.counter,
            energy := if visited then s.energy + bias_energy else s.energy })

/-- Transcription of the whole loop of `BiasThread::execute`: total bias
energy `m_current_bias` and the updated structure list. -/
def biasExecute (k dT alpha econv DTwt kbq : ℚ) (wtmtd : Bool)
    (gauss : ℚ → ℚ) (structs : List BiasStructure) : ℚ × List BiasStructure :=
  let results := structs.map (biasStep k dT alpha econv DTwt kbq wtmtd gauss structs.length)
  ((results.map Prod.fst).sum, results.map Prod.snd)

/-- The specification formula for plain metadynamics,
V_bias = k_rmsd · Σ_k w_k · exp(−α·RMSD²) with w_k the visit counter,
written with the same abstract exponential `gauss`. -/
def biasSpecTotal (k alpha : ℚ) (gauss : ℚ → ℚ) (structs : List BiasStructure) : ℚ :=
  k * (structs.map (fun s => (s.counter : ℚ) * gauss (-(alpha * (s.rmsd * s.rmsd))))).sum

/-- Constant-one stand-in for the exponential.  It agrees with the real
`exp` on every argument produced by `biasStep` when `alpha = 0` and the
stored energies are 0, since then every argument is 0 and exp 0 = 1. -/
def gaussOne : ℚ → ℚ := fun _ => 1

/-- Failing input for the plain-MTD bias formula: a single deposited
structure with visit counter 3 (rmsd, energy and factor all 0). -/
def biasCex : List BiasStructure := [⟨0, 3, 0, 0⟩]

/-! ### Log-Fermi walls (simplemd.cpp) -/

/-- Transcription of the guarded exponential of
`SimpleMD::ApplySphericLogFermiWalls` (simplemd.cpp:2423-2431): the
argument `beta_arg = m_wall_beta * (distance - m_wall_spheric_radius)`
reaches `exp` only when it is neither above 700 nor below -700; outside
that range a saturation constant is substituted and `exp` is not called.
`some a` records the argument actually passed to `exp`, `none` that `exp`
was skipped. -/
def sphericExpArg (beta distance radius : ℚ) : Option ℚ :=
  if beta * (distance - radius) > 700 then none
  else if beta * (distance - radius) < -700 then none
  else some (beta * (distance - radius))

/-- Transcription of the six exponential arguments of
`SimpleMD::ApplyRectLogFermiWalls` (simplemd.cpp:2483-2490): all six are
passed to `exp` unconditionally, with no guard or clamping. -/
def rectExpArgs (b xmin xmax ymin ymax zmin zmax x y z : ℚ) : List ℚ :=
  [b * (xmin - x), b * (x - xmax), b * (ymin - y), b * (y - ymax),
   b * (zmin - z), b * (z - zmax)]

/-! ### Conformer-scanner reorder pass, per-pair decision (confscan.cpp) -/

/-- Transcription of the loose 3-bit mask of `ConfScan::Reorder`
(confscan.cpp:1243): bit 1 for rotational constants, bit 2 for the ripser
descriptor, bit 4 for the energy difference. -/
def looseMask (dI dH dE dLI dLH dLE : ℚ) : ℕ :=
  (if dI < dLI then 1 else 0) + (if dH < dLH then 2 else 0) +
    (if dE < dLE then 4 else 0)

/-- Transcription of the tight 3-bit mask of `ConfScan::Reorder`
(confscan.cpp:1252), built from the tight thresholds dTI, dTH, dTE. -/
def tightMask (dI dH dE dTI dTH dTE : ℚ) : ℕ :=
  (if dI < dTI then 1 else 0) + (if dH < dTH then 2 else 0) +
    (if dE < dTE then 4 else 0)

/-- Outcome of `ConfScan::Reorder` for one examined candidate/accepted
pair (confscan.cpp:1243-1270): `submit` — the pair is enabled and will be
run through reorder alignment; `duplicate` — the pair is in the exclude
list of already-performed pairs, skipped without alignment;
`tightReject` — the candidate is rejected directly, no alignment runs;
`skip` — the thresholds rule the pair out, thread disabled. -/
inductive PairDecision where
  | submit
  | duplicate
  | tightReject
  | skip
deriving DecidableEq

/-- Transcription of the per-pair branch of `ConfScan::Reorder`
(confscan.cpp:1243-1270).  `e1`, `e2` are the two energies in Hartree;
the code converts their difference to kJ/mol with the factor 2625.5.
The outer condition (line 1244) is the loose-mask test or the fallback
for all three loose thresholds at most 1e-8. -/
def pairStep (dI dH e1 e2 dLI dLH dLE dTI dTH dTE : ℚ)
    (looseSetting tightSetting : ℕ) (excluded : Bool) : PairDecision :=
  if (looseMask dI dH (|e1 - e2| * (5251/2)) dLI dLH dLE) &&& looseSetting
        = looseSetting ∨
      (dLI ≤ 1/100000000 ∧ dLH ≤ 1/100000000 ∧ dLE ≤ 1/100000000) then
    if excluded = true then PairDecision.duplicate
    else if (tightMask dI dH (|e1 - e2| * (5251/2)) dTI dTH dTE) &&& tightSetting
        = tightSetting then
      PairDecision.tightReject
    else PairDecision.submit
  else PairDecision.skip

/-! ### Conformer-scanner pass ordering (confscan.cpp) -/

/-- A molecule as seen by the scanner ordering logic: its energy and its
load index. -/
structure ScanMol where
  energy : ℚ
  idx : ℕ
deriving DecidableEq

/-- Transcription of `m_ordered_list.insert(std::pair<double,int>(energy, molecule))`
(confscan.cpp:408): `std::multimap` insertion places the new entry after
all entries with key at most its own, i.e. before the first strictly
greater key. -/
def energyInsert (m : ScanMol) : List ScanMol → List ScanMol
  | [] => [m]
  | b :: l => if m.energy < b.energy then m :: b :: l else b :: energyInsert m l

/-- The energy-ordered candidate list built while loading the ensemble
(confscan.cpp:394-426). -/
def buildOrderedList (ms : List ScanMol) : List ScanMol :=
  ms.foldl (fun acc m => energyInsert m acc) []

/-- Transcription of the accept/reject skeleton shared by
`ConfScan::CheckOnly` (confscan.cpp:981-1087) and `ConfScan::Reorder`
(confscan.cpp:1197-1383): candidates are consumed in list order; when the
accepted list is empty the candidate is accepted unconditionally
(`AcceptMolecule`, lines 998-1014 / 1198-1209); otherwise the comparison
machinery — abstracted as the oracle `keep`, since it calls the
out-of-scope RMSD driver — decides acceptance.  `AcceptMolecule` appends
at the back (confscan.cpp:668-669). -/
def scanPass (keep : List ScanMol → ScanMol → Bool) :
    List ScanMol → List ScanMol → List ScanMol
  | acc, [] => acc
  | acc, m :: rest =>
    if acc.isEmpty = true then scanPass keep (acc ++ [m]) rest
    else if keep acc m = true then scanPass keep (acc ++ [m]) rest
    else scanPass keep acc rest

/-- Energies are non-decreasing along the list. -/
def EnergySorted (l : List ScanMol) : Prop :=
  List.Sorted (fun a b : ScanMol => a.energy ≤ b.energy) l

instance (l : List ScanMol) : Decidable (EnergySorted l) :=
  inferInstanceAs (Decidable (List.Pairwise _ l))

/-! ### RATTLE constraint iterations (simplemd.cpp, SimpleMD::Rattle) -/

/-- The scaling loop `while (std::abs(lambda) > max) lambda *= scale` with
`scale = 0.1` terminates for positive `max`: some power of 1/10 brings the
magnitude within bound. -/
def scaleSteps_exists (l rmax : ℚ) (h : 0 < rmax) :
    ∃ k : ℕ, |l| * (1/10 : ℚ) ^ k ≤ rmax := by
  obtain ⟨n, hn⟩ := pow_unbounded_of_one_lt (|l| / rmax) (by norm_num : (1:ℚ) < 10)
  refine ⟨n, ?_⟩
  have h10 : (0:ℚ) < 10 ^ n := by positivity
  have hlt : |l| < rmax * 10 ^ n := by
    have := (div_lt_iff₀ h).mp hn
    linarith
  have heq : |l| * (1/10 : ℚ) ^ n = |l| / 10 ^ n := by
    rw [one_div, inv_pow, div_eq_mul_inv]
  rw [heq, div_le_iff₀ h10]
  linarith

/-- Number of times the scaling loop multiplies by 0.1: the least `k` with
`|l| · (1/10)^k ≤ rmax` (0 when `rmax ≤ 0`; in that degenerate case the
C++ loop would not terminate for `l ≠ 0`). -/
def scaleSteps (l rmax : ℚ) : ℕ :=
  if h : 0 < rmax then Nat.find (scaleSteps_exists l rmax h) else 0

/-- Denotation of `while (std::abs(lambda) > max) lambda *= scale` with
`scale = 0.1` (simplemd.cpp:1868-1871, 1977-1980, 2201-2202, 2249-2250):
the multiplier after the loop. -/
def scaleLoop (l rmax : ℚ) : ℚ := l * (1/10 : ℚ) ^ scaleSteps l rmax

/-- Transcription of the scalar-product guard of the position-constraint
iteration (simplemd.cpp:1843-1851, 1955-1963): a scalar product with
magnitude below `m_rattle_min` is replaced by `±m_rattle_min` before it is
used as a divisor. -/
def clampScalar (sp rmin : ℚ) : ℚ :=
  if |sp| < rmin then (if sp < 0 then -1 * rmin else rmin) else sp

/-- Transcription of the Lagrange-multiplier computation of the
position-constraint iteration (simplemd.cpp:1843-1871):
`lambda = r / (1 * (invm_i + invm_j) * scalarproduct)` with the clamped
scalar product, followed by the 0.1-scaling loop. -/
def rattleLambda (r invmi invmj sp rmin rmax : ℚ) : ℚ :=
  scaleLoop (r / (1 * (invmi + invmj) * clampScalar sp rmin)) rmax

/-- A constraint record: two atom indices and the squared reference
distance (`m_bond_constrained` / `m_bond_13_constrained` entries). -/
structure RattleBond where
  i : ℕ
  j : ℕ
  dist2 : ℚ

/-- Triple update of a flattened array at `base`, `base+1`, `base+2`. -/
def upd3 (f : ℕ → ℚ) (base : ℕ) (a b c : ℚ) : ℕ → ℚ :=
  Function.update (Function.update (Function.update f base a) (base+1) b) (base+2) c

/-- State of the position-constraint iteration: `g1` is `m_rt_geom_1`,
`rtv` is `m_rt_velo`, `moved` the per-atom counter `moved_12`/`moved_13`. -/
structure PosState where
  g1 : ℕ → ℚ
  rtv : ℕ → ℚ
  moved : ℕ → ℤ

/-- Transcription of the per-bond body of the position-constraint
iteration of `SimpleMD::Rattle` (simplemd.cpp:1819-1929 for 1-2 bonds,
identical 1931-2038 for 1-3 bonds).  `geom` is `m_eigen_geometry`, `invm`
is `m_eigen_inv_masses.data()` indexed exactly as the source indexes it
(flat index `i`, lines 1853, 1873-1879), `coordBase`/`velBase` are the
iteration-constant `coord` and `m_eigen_velocities` arrays.  The
diagnostic printing, the `difference_curr` bookkeeping (its consumers are
commented out in the source) and the `local_dof` counter are omitted. -/
def posBond (geom invm coordBase velBase : ℕ → ℚ) (tol rmin rmax dtinv : ℚ)
    (st : PosState) (b : RattleBond) : PosState :=
  if |b.dist2 - ((st.g1 (3*b.i) - st.g1 (3*b.j)) * (st.g1 (3*b.i) - st.g1 (3*b.j))
      + (st.g1 (3*b.i+1) - st.g1 (3*b.j+1)) * (st.g1 (3*b.i+1) - st.g1 (3*b.j+1))
      + (st.g1 (3*b.i+2) - st.g1 (3*b.j+2)) * (st.g1 (3*b.i+2) - st.g1 (3*b.j+2)))| > tol then
    let r := b.dist2 - ((st.g1 (3*b.i) - st.g1 (3*b.j)) * (st.g1 (3*b.i) - st.g1 (3*b.j))
      + (st.g1 (3*b.i+1) - st.g1 (3*b.j+1)) * (st.g1 (3*b.i+1) - st.g1 (3*b.j+1))
      + (st.g1 (3*b.i+2) - st.g1 (3*b.j+2)) * (st.g1 (3*b.i+2) - st.g1 (3*b.j+2)))
    let dx := geom (3*b.i) - geom (3*b.j)
    let dy := geom (3*b.i+1) - geom (3*b.j+1)
    let dz := geom (3*b.i+2) - geom (3*b.j+2)
    let sp := dx * (st.g1 (3*b.i) - st.g1 (3*b.j))
      + dy * (st.g1 (3*b.i+1) - st.g1 (3*b.j+1))
      + dz * (st.g1 (3*b.i+2) - st.g1 (3*b.j+2))
    let moved1 := Function.update st.moved b.i (st.moved b.i + 1)
    let moved2 := Function.update moved1 b.j (moved1 b.j + 1)
    let lam := rattleLambda r (invm b.i) (invm b.j) sp rmin rmax
    let g1a := upd3 st.g1 (3*b.i)
      (coordBase (3*b.i) + dx * lam * (1/2) * invm b.i)
      (coordBase (3*b.i+1) + dy * lam * (1/2) * invm b.i)
      (coordBase (3*b.i+2) + dz * lam * (1/2) * invm b.i)
    let g1b := upd3 g1a (3*b.j)
      (coordBase (3*b.j) - dx * lam * (1/2) * invm b.j)
      (coordBase (3*b.j+1) - dy * lam * (1/2) * invm b.j)
      (coordBase (3*b.j+2) - dz * lam * (1/2) * invm b.j)
    let rtva := upd3 st.rtv (3*b.i)
      (velBase (3*b.i) + dx * lam * (1/2) * invm b.i * dtinv)
      (velBase (3*b.i+1) + dy * lam * (1/2) * invm b.i * dtinv)
      (velBase (3*b.i+2) + dz * lam * (1/2) * invm b.i * dtinv)
    let rtvb := upd3 rtva (3*b.j)
      (velBase (3*b.j) - dx * lam * (1/2) * invm b.j * dtinv)
      (velBase (3*b.j+1) - dy * lam * (1/2) * invm b.j * dtinv)
      (velBase (3*b.j+2) - dz * lam * (1/2) * invm b.j * dtinv)
    { g1 := g1b, rtv := rtvb, moved := moved2 }
  else st

/-- Cross-iteration state of the position loop: `x` is `coord` (equal to
`m_rt_geom_1` at iteration boundaries, lines 2070-2072), `v` is
`m_eigen_velocities` (copied from `m_rt_velo` at line 2066-2068), and the
two per-atom counters. -/
structure PosLoopState where
  x : ℕ → ℚ
  v : ℕ → ℚ
  m12 : ℕ → ℤ
  m13 : ℕ → ℤ

/-- One iteration of the position loop of `SimpleMD::Rattle`
(simplemd.cpp:1812-2074): the 1-2 bond pass, the 1-3 bond pass, then the
commit of `m_rt_velo` into the velocities and of `m_rt_geom_1` into
`coord`. -/
def posIter (geom invm : ℕ → ℚ) (tol12 tol13 rmin rmax dtinv : ℚ)
    (bonds12 bonds13 : List RattleBond) (s : PosLoopState) : PosLoopState :=
  let s1 := bonds12.foldl (posBond geom invm s.x s.v tol12 rmin rmax dtinv)
    { g1 := s.x, rtv := s.v, moved := s.m12 }
  let s2 := bonds13.foldl (posBond geom invm s.x s.v tol13 rmin rmax dtinv)
    { g1 := s1.g1, rtv := s1.rtv, moved := s.m13 }
  { x := s2.g1, v := s2.rtv, m12 := s1.moved, m13 := s2.moved }

/-- The position loop `while (iter < m_rattle_maxiter)`
(simplemd.cpp:1812-2074); it contains no break, so it runs `fuel` times.
Returns the final state with the number of executed iterations. -/
def posLoop (geom invm : ℕ → ℚ) (tol12 tol13 rmin rmax dtinv : ℚ)
    (bonds12 bonds13 : List RattleBond) : ℕ → PosLoopState → PosLoopState × ℕ
  | 0, s => (s, 0)
  | fuel+1, s =>
    ((posLoop geom invm tol12 tol13 rmin rmax dtinv bonds12 bonds13 fuel
        (posIter geom invm tol12 tol13 rmin rmax dtinv bonds12 bonds13 s)).1,
     (posLoop geom invm tol12 tol13 rmin rmax dtinv bonds12 bonds13 fuel
        (posIter geom invm tol12 tol13 rmin rmax dtinv bonds12 bonds13 s)).2 + 1)

/-- Transcription of the per-bond body of the velocity-constraint
iteration of `SimpleMD::Rattle` (simplemd.cpp:2175-2221 for 1-2 bonds,
identical 2223-2269 for 1-3 bonds): the multiplier
`mu = -1 * r / ((invm_i + invm_j) * distance_current)` is scaled by 0.1
until its magnitude is at most `m_rattle_max`, then applied to the
velocities; the Bool records whether any bond was active this iteration.
The virial-correction accumulator is omitted. -/
def velBond (coord invm : ℕ → ℚ) (rmax : ℚ)
    (st : ((ℕ → ℚ) × (ℕ → ℤ)) × Bool) (b : RattleBond) :
    ((ℕ → ℚ) × (ℕ → ℤ)) × Bool :=
  if st.1.2 b.i ≠ 0 ∧ st.1.2 b.j ≠ 0 then
    let vel := st.1.1
    let moved1 := Function.update st.1.2 b.i (st.1.2 b.i - 1)
    let moved2 := Function.update moved1 b.j (moved1 b.j - 1)
    let dx := coord (3*b.i) - coord (3*b.j)
    let dy := coord (3*b.i+1) - coord (3*b.j+1)
    let dz := coord (3*b.i+2) - coord (3*b.j+2)
    let dvx := vel (3*b.i) - vel (3*b.j)
    let dvy := vel (3*b.i+1) - vel (3*b.j+1)
    let dvz := vel (3*b.i+2) - vel (3*b.j+2)
    let r := dx * dvx + dy * dvy + dz * dvz
    let mu := scaleLoop (-1 * r / ((invm b.i + invm b.j)
      * (dx * dx + dy * dy + dz * dz))) rmax
    let vela := upd3 vel (3*b.i)
      (vel (3*b.i) + dx * mu * invm b.i)
      (vel (3*b.i+1) + dy * mu * invm b.i)
      (vel (3*b.i+2) + dz * mu * invm b.i)
    let velb := upd3 vela (3*b.j)
      (vela (3*b.j) - dx * mu * invm b.j)
      (vela (3*b.j+1) - dy * mu * invm b.j)
      (vela (3*b.j+2) - dz * mu * invm b.j)
    ((velb, moved2), true)
  else st

/-- The velocity loop `while (iter < m_rattle_maxiter)` of
`SimpleMD::Rattle` (simplemd.cpp:2171-2273): both bond passes run with
their own `moved` counters; when no bond was active the loop breaks
(line 2271-2272).  Returns (velocities, moved12, moved13) and the number
of executed iterations. -/
def velLoop (coord invm : ℕ → ℚ) (rmax : ℚ) (bonds12 bonds13 : List RattleBond) :
    ℕ → (ℕ → ℚ) → (ℕ → ℤ) → (ℕ → ℤ) → ((ℕ → ℚ) × (ℕ → ℤ) × (ℕ → ℤ)) × ℕ
  | 0, v, m12, m13 => ((v, m12, m13), 0)
  | fuel+1, v, m12, m13 =>
    let r1 := bonds12.foldl (velBond coord invm rmax) ((v, m12), false)
    let r2 := bonds13.foldl (velBond coord invm rmax) ((r1.1.1, m13), r1.2)
    if r2.2 = true then
      ((velLoop coord invm rmax bonds12 bonds13 fuel r2.1.1 r1.1.2 r2.1.2).1,
       (velLoop coord invm rmax bonds12 bonds13 fuel r2.1.1 r1.1.2 r2.1.2).2 + 1)
    else ((r2.1.1, r1.1.2, r2.1.2), 1)

end Curcuma

namespace Curcuma

/-! ## Theorems -/

/-- C10: the assignment cost kernel is total over all integer selector
values: selectors 1..6 give d², d, d+n, d²+n², d·n, d²·n², and any other
selector gives d², identical to selector 1. -/
theorem cost_kernel_total (d n : ℚ) :
    Cost d n 1 = d * d ∧ Cost d n 2 = d ∧ Cost d n 3 = d + n ∧
    Cost d n 4 = d * d + n * n ∧ Cost d n 5 = d * n ∧
    Cost d n 6 = d * d * n * n ∧
    (∀ c : ℤ, c ≠ 1 → c ≠ 2 → c ≠ 3 → c ≠ 4 → c ≠ 5 → c ≠ 6 →
      Cost d n c = Cost d n 1) := by
  refine ⟨rfl, ?_, ?_, ?_, ?_, ?_, ?_⟩ <;>
    first
      | (intro c h1 h2 h3 h4 h5 h6
         simp [Cost, h1, h2, h3, h4, h5, h6])
      | simp [Cost]

/-- Witness for `cost_kernel_total` at d = 3, n = 5, selector 7. -/
theorem cost_kernel_total_witness :
    Cost 3 5 7 = Cost 3 5 1 :=
  (cost_kernel_total 3 5).2.2.2.2.2.2 7 (by decide) (by decide) (by decide)
    (by decide) (by decide) (by decide)

/-- C9: the reorder-rule cache never contains duplicates (membership is
checked before every append, both in `AddRules` and when restoring from a
restart file), existing entries are never removed or reordered (the cache
is always a prefix of the updated cache), and a rule already present is
not appended again. -/
theorem reorder_rule_cache_invariant (cache : List (List ℤ)) (r : List ℤ)
    (skip : Bool) (restored : List (List ℤ)) (hnd : cache.Nodup) :
    ((AddRules cache r skip).1).Nodup ∧
    (∃ t, (AddRules cache r skip).1 = cache ++ t) ∧
    (r ∈ cache → (AddRules cache r skip).1 = cache) ∧
    (LoadRestartRules cache restored).Nodup ∧
    (∃ t, LoadRestartRules cache restored = cache ++ t) := by
  refine ⟨?_, ?_, ?_, ?_, ?_⟩
  · unfold AddRules
    split
    · exact hnd
    · split
      · exact hnd
      · rename_i hmem
        simpa [List.nodup_append] using ⟨hnd, fun h => hmem h⟩
  · unfold AddRules
    split
    · exact ⟨[], by simp⟩
    · split
      · exact ⟨[], by simp⟩
      · exact ⟨[r], rfl⟩
  · intro hmem
    unfold AddRules
    split
    · rfl
    · simp [hmem]
  · have key : ∀ (rs : List (List ℤ)) (c : List (List ℤ)), c.Nodup →
        (LoadRestartRules c rs).Nodup := by
      intro rs
      induction rs with
      | nil => intro c hc; exact hc
      | cons v rest ih =>
        intro c hc
        unfold LoadRestartRules
        simp only [List.foldl_cons]
        by_cases hv : v ∈ c
        · simpa [LoadRestartRules, hv] using ih c hc
        · have hc2 : (c ++ [v]).Nodup := by
            simpa [List.nodup_append] using ⟨hc, fun h => hv h⟩
          simpa [LoadRestartRules, hv] using ih (c ++ [v]) hc2
    exact key restored cache hnd
  · have key : ∀ (rs : List (List ℤ)) (c : List (List ℤ)),
        ∃ t, LoadRestartRules c rs = c ++ t := by
      intro rs
      induction rs with
      | nil => intro c; exact ⟨[], by simp [LoadRestartRules]⟩
      | cons v rest ih =>
        intro c
        unfold LoadRestartRules
        simp only [List.foldl_cons]
        by_cases hv : v ∈ c
        · simpa [LoadRestartRules, hv] using ih c
        · obtain ⟨t, ht⟩ := ih (c ++ [v])
          refine ⟨[v] ++ t, ?_⟩
          simpa [LoadRestartRules, hv, List.append_assoc] using ht
    exact key restored cache

/-- Witness for `reorder_rule_cache_invariant` on a concrete cache. -/
theorem reorder_rule_cache_invariant_witness :
    ((AddRules [[0, 1]] [1, 0] false).1).Nodup ∧
    ((AddRules [[0, 1]] [1, 0] false).1 = [[0, 1], [1, 0]]) :=
  ⟨(reorder_rule_cache_invariant [[0, 1]] [1, 0] false [] (by decide)).1,
    by decide⟩

/-- C1 (code bug): `SimpleMD::EKin` reads the mass factor of atom `i` at
flat index `i` of the length-`3N` replicated mass array, which is the mass
of atom `i / 3`, not of atom `i`.  On two atoms of masses 1 and 2 with
only atom 1 moving at unit speed, the code yields E_kin = 1/2 while the
specified ½ Σ mᵢ vᵢ² is 1, and the resulting temperatures (kb = 1,
dof = 6) differ accordingly. -/
theorem ekin_mass_indexing_bug :
    ekinCode 2 (massArray massBug) veloBug = 1/2 ∧
    ekinSpec 2 massBug veloBug = 1 ∧
    ekinCode 2 (massArray massBug) veloBug ≠ ekinSpec 2 massBug veloBug ∧
    tempOf 1 6 (ekinCode 2 (massArray massBug) veloBug) ≠
      tempOf 1 6 (ekinSpec 2 massBug veloBug) := by
  have h1 : ekinCode 2 (massArray massBug) veloBug = 1/2 := by
    simp [ekinCode, massArray, massBug, veloBug, Finset.sum_range_succ]
  have h2 : ekinSpec 2 massBug veloBug = 1 := by
    norm_num [ekinSpec, massBug, veloBug, Finset.sum_range_succ]
  refine ⟨h1, h2, ?_, ?_⟩
  · rw [h1, h2]; norm_num
  · rw [h1, h2]; norm_num [tempOf]

/-- C3 (counterexample): the bias energy returned by `BiasThread::execute`
is not `k_rmsd · Σ w_k · exp(−α·RMSD²)`.  With α = 0 the exponential is
exactly 1 on every argument the code produces, so `gaussOne` is the real
`exp` on this input; with k = 1, `rmsd_DT` = 2 and one structure of visit
counter 3 the code returns 6 while the claimed formula gives 3. -/
theorem bias_energy_counterexample :
    (biasExecute 1 2 0 0 1 1 false gaussOne biasCex).1 = 6 ∧
    biasSpecTotal 1 0 gaussOne biasCex = 3 ∧
    (biasExecute 1 2 0 0 1 1 false gaussOne biasCex).1 ≠
      biasSpecTotal 1 0 gaussOne biasCex := by
  refine ⟨?_, ?_, ?_⟩ <;>
    norm_num [biasExecute, biasStep, biasSpecTotal, gaussOne, biasCex]

/-- C3 (amended): for plain (non-well-tempered) RMSD metadynamics the
total bias energy returned by `BiasThread::execute` equals
`rmsd_DT · k_rmsd · Σ_k w_k · exp(−α·RMSD(x,s_k)²)` — the specification
formula times the extra factor `rmsd_DT` (`m_dT`, simplemd.cpp:92) — with
each weight w_k the visit counter of s_k at the start of the call. -/
theorem bias_energy_plain_total (k dT alpha econv DTwt kbq : ℚ)
    (gauss : ℚ → ℚ) (structs : List BiasStructure) :
    (biasExecute k dT alpha econv DTwt kbq false gauss structs).1 =
      dT * biasSpecTotal k alpha gauss structs := by
  have hfst : ∀ (size : ℕ) (s : BiasStructure),
      (biasStep k dT alpha econv DTwt kbq false gauss size s).1 =
        gauss (-(alpha * (s.rmsd * s.rmsd))) * dT * (s.counter : ℚ) * k := by
    intro size s
    have harg : gauss (-(s.rmsd * s.rmsd) * alpha)
        = gauss (-(alpha * (s.rmsd * s.rmsd))) := by
      congr 1
      ring
    dsimp only [biasStep]
    rw [if_pos rfl, harg]
  have key : ∀ (size : ℕ) (l : List BiasStructure),
      ((l.map (biasStep k dT alpha econv DTwt kbq false gauss size)).map Prod.fst).sum
        = dT * (k * (l.map (fun s =>
            (s.counter : ℚ) * gauss (-(alpha * (s.rmsd * s.rmsd))))).sum) := by
    intro size l
    induction l with
    | nil => simp
    | cons s rest ih =>
      simp only [List.map_cons, List.sum_cons, ih, hfst]
      ring
  simpa [biasExecute, biasSpecTotal] using key structs.length structs

/-- C4 (counterexample): the instability flag of `SimpleMD::Verlet` is set
by comparing the new temperature against 10000 times the temperature of
the preceding half-step (`m_T`), not against 10000·T₀.  One atom of mass 1
at unit speed (T = 1/3 with kb = 1, dof = 3) is flagged unstable when the
preceding half-step temperature was 1/100000, although with T₀ = 300 the
claimed condition T > 10000·T₀ is false. -/
theorem verlet_unstable_counterexample :
    ((verletSecondHalf 1 (massArray (fun _ => 1)) (fun k => if k = 0 then 1 else 0)
        (fun _ => 0) (fun _ => 1) 0 1 3 (1/100000)).2 = true) ∧
    ¬ ((verletSecondHalf 1 (massArray (fun _ => 1)) (fun k => if k = 0 then 1 else 0)
        (fun _ => 0) (fun _ => 1) 0 1 3 (1/100000)).1 > 10000 * 300) := by
  have hT : (verletSecondHalf 1 (massArray (fun _ => 1)) (fun k => if k = 0 then 1 else 0)
      (fun _ => 0) (fun _ => 1) 0 1 3 (1/100000)).1 = 1/3 := by
    norm_num [verletSecondHalf, tempOf, ekinCode, massArray, Finset.sum_range_succ]
  refine ⟨?_, ?_⟩
  · simp only [verletSecondHalf, decide_eq_true_eq]
    have : tempOf 1 3 (ekinCode 1 (massArray fun _ => 1)
        fun k => (if k = 0 then (1:ℚ) else 0) - 1/2 * 0 * 0 * 1) = 1/3 := by
      norm_num [tempOf, ekinCode, massArray, Finset.sum_range_succ]
    rw [this]; norm_num
  · rw [hT]; norm_num

/-- C4 (amended): `m_unstable` is set in `SimpleMD::Verlet` exactly when
the temperature computed after the second velocity half-kick exceeds
10000 times the temperature `m_T` of the preceding half-step; the target
temperature T₀ does not enter the test (it is not even an argument of the
flag computation). -/
theorem verlet_unstable_rule (n : ℕ) (massdata v g invm : ℕ → ℚ)
    (dT kb : ℚ) (dof : ℕ) (Tprev : ℚ) :
    (verletSecondHalf n massdata v g invm dT kb dof Tprev).2 = true ↔
      tempOf kb dof (ekinCode n massdata
        (fun k => v k - (1/2) * dT * g k * invm k)) > 10000 * Tprev := by
  simp [verletSecondHalf]

/-- C7 (counterexample): the rectangular log-Fermi wall passes its six
exponential arguments to `exp` with no clamping: with β = 1, upper x-wall
at 0 and an atom at x = 1500, the argument 1500 ∉ [−700, 700] is passed
to `exp`. -/
theorem rect_wall_exp_unclamped :
    (1500 : ℚ) ∈ rectExpArgs 1 0 0 0 0 0 0 1500 0 0 ∧
    ¬ ((1500 : ℚ) ≤ 700) := by
  refine ⟨?_, by norm_num⟩
  have : (1500 : ℚ) = 1 * (1500 - 0) := by norm_num
  rw [this]
  simp [rectExpArgs]

/-- C7 (amended): only the spherical log-Fermi wall guards the
exponential: whenever `exp` is invoked there, its argument lies in
[−700, 700] (outside that range the code substitutes a saturation value
without calling `exp`).  The rectangular wall has no such guard. -/
theorem spheric_wall_exp_clamped (beta distance radius a : ℚ)
    (h : sphericExpArg beta distance radius = some a) :
    -700 ≤ a ∧ a ≤ 700 := by
  unfold sphericExpArg at h
  split at h
  · exact absurd h (by simp)
  · split at h
    · exact absurd h (by simp)
    · rename_i h1 h2
      obtain rfl : beta * (distance - radius) = a := by
        simpa using h
      constructor
      · linarith [not_lt.mp h2]
      · linarith [not_lt.mp h1]

/-- Witness for `spheric_wall_exp_clamped`: β = 1, distance 700, radius 0
gives argument 700 to `exp`, inside [−700, 700]. -/
theorem spheric_wall_exp_clamped_witness :
    -700 ≤ (700 : ℚ) ∧ (700 : ℚ) ≤ 700 :=
  spheric_wall_exp_clamped 1 700 0 700 (by
    simp [sphericExpArg, show ¬((700 : ℚ) < -700) from by decide])

/-- C8 (counterexample): when no bias structure is stored yet,
`SimpleMD::ApplyRMSDMTD` deposits a seed structure unconditionally
(simplemd.cpp:2316-2318), although the claimed condition
`current_bias · econv < count` is false at count = 0 (and here even
`m_rmsd_fix_structure` is true). -/
theorem mtd_seed_deposit_counterexample :
    (mtdStep 0 5 0 0 1 true 4).1 = [0] ∧ ¬ ((0 : ℚ) * 1 < ((0 : ℕ) : ℚ)) := by
  refine ⟨?_, by norm_num⟩
  norm_num [mtdStep, mtdDeposit]

/-- C8 (amended): deposits happen only in calls guarded by
`step % mtd_steps = 0`; when the stored set is non-empty a structure is
deposited exactly when `bias · econv < count` and the fix-structure flag
is off, into worker slot `count % nworkers`; when the stored set is empty
a seed structure goes to slot 0 unconditionally, followed in the same
call by a slot-`1 % nworkers` deposit exactly when `bias · econv < 1`
with the flag off. -/
theorem mtd_deposit_rule (step mtd_steps count nworkers : ℕ)
    (bias econv : ℚ) (fix : Bool) :
    (step % mtd_steps ≠ 0 →
      mtdStep step mtd_steps count bias econv fix nworkers = ([], count)) ∧
    (step % mtd_steps = 0 → count ≠ 0 →
      mtdStep step mtd_steps count bias econv fix nworkers =
        (if bias * econv < (count : ℚ) ∧ fix = false
          then [count % nworkers] else [],
         if bias * econv < (count : ℚ) ∧ fix = false then count + 1 else count)) ∧
    (step % mtd_steps = 0 → count = 0 →
      mtdStep step mtd_steps count bias econv fix nworkers =
        (if bias * econv < 1 ∧ fix = false then [0, 1 % nworkers] else [0],
         if bias * econv < 1 ∧ fix = false then 2 else 1)) := by
  refine ⟨?_, ?_, ?_⟩
  · intro h
    simp [mtdStep, h]
  · intro h hc
    simp only [mtdStep, h, if_pos rfl, mtdDeposit, if_neg hc]
    by_cases hcond : bias * econv < (count : ℚ) ∧ fix = false
    · simp [hcond]
    · simp [hcond]
  · intro h hc
    subst hc
    simp only [mtdStep, h, if_pos rfl, mtdDeposit, if_pos rfl, Nat.cast_one]
    by_cases hcond : bias * econv < 1 ∧ fix = false
    · simp [hcond]
    · simp [hcond]

/-- Witness for `mtd_deposit_rule`: step 10 with mtd_steps 5, 3 stored
structures, fix-structure flag on: no deposit. -/
theorem mtd_deposit_rule_witness :
    mtdStep 10 5 3 0 1 true 4 = ([], 3) := by
  rw [(mtd_deposit_rule 10 5 3 4 0 1 true).2.1 (by decide) (by decide)]
  simp

/-- C2 (counterexample): in `ConfScan::Reorder` a pair is submitted to
reorder alignment even though its loose mask does not satisfy the
`looseThresh` setting, via the fallback for all three loose thresholds at
most 1e-8 (confscan.cpp:1244): with dLI = dLH = dLE = 0 and large
descriptor differences the mask is 0 and `0 &&& 7 ≠ 7`, yet the decision
is `submit`. -/
theorem reorder_pair_counterexample :
    pairStep 5 5 1 0 0 0 0 (-1) (-1) (-1) 7 7 false = PairDecision.submit ∧
    ¬ ((looseMask 5 5 (|1 - 0| * (5251/2)) 0 0 0) &&& 7 = 7) := by
  constructor
  · norm_num [pairStep, looseMask, tightMask]
  · norm_num [looseMask]

/-- C2 (amended): for every examined candidate/accepted pair the 3-bit
mask is built from {ΔI<dLI, ΔH<dLH, ΔE<dLE}; the pair is submitted to
reorder alignment exactly when (the mask satisfies the `looseThresh`
setting, or all three loose thresholds are at most 1e-8) and the pair is
not in the exclude list of already-performed pairs and the tight mask
built from (dTI, dTH, dTE) does not satisfy the `tightThresh` setting;
when the loose condition holds, the pair is not excluded and the tight
mask does satisfy `tightThresh`, the candidate is rejected directly with
no alignment run. -/
theorem reorder_pair_rule (dI dH e1 e2 dLI dLH dLE dTI dTH dTE : ℚ)
    (looseSetting tightSetting : ℕ) (excluded : Bool) :
    (pairStep dI dH e1 e2 dLI dLH dLE dTI dTH dTE looseSetting tightSetting
        excluded = PairDecision.submit ↔
      (((looseMask dI dH (|e1 - e2| * (5251/2)) dLI dLH dLE) &&& looseSetting
          = looseSetting ∨
        (dLI ≤ 1/100000000 ∧ dLH ≤ 1/100000000 ∧ dLE ≤ 1/100000000)) ∧
       excluded = false ∧
       ¬ ((tightMask dI dH (|e1 - e2| * (5251/2)) dTI dTH dTE) &&& tightSetting
          = tightSetting))) ∧
    (pairStep dI dH e1 e2 dLI dLH dLE dTI dTH dTE looseSetting tightSetting
        excluded = PairDecision.tightReject ↔
      (((looseMask dI dH (|e1 - e2| * (5251/2)) dLI dLH dLE) &&& looseSetting
          = looseSetting ∨
        (dLI ≤ 1/100000000 ∧ dLH ≤ 1/100000000 ∧ dLE ≤ 1/100000000)) ∧
       excluded = false ∧
       (tightMask dI dH (|e1 - e2| * (5251/2)) dTI dTH dTE) &&& tightSetting
          = tightSetting)) := by
  unfold pairStep
  split_ifs with h1 h2 h3 <;> simp_all

/-- Membership in the multimap-style insertion. -/
theorem mem_energyInsert (x m : ScanMol) (l : List ScanMol) :
    x ∈ energyInsert m l ↔ x = m ∨ x ∈ l := by
  induction l with
  | nil => simp [energyInsert]
  | cons b rest ih =>
    unfold energyInsert
    split
    · simp [or_comm, or_left_comm]
    · simp only [List.mem_cons, ih]
      tauto

/-- Multimap-style insertion preserves sortedness by energy. -/
theorem energyInsert_sorted (m : ScanMol) (l : List ScanMol)
    (h : EnergySorted l) : EnergySorted (energyInsert m l) := by
  induction l with
  | nil => simp [energyInsert, EnergySorted]
  | cons b rest ih =>
    unfold EnergySorted at h ⊢
    rw [List.sorted_cons] at h
    unfold energyInsert
    split
    · rename_i hlt
      rw [List.sorted_cons]
      refine ⟨?_, List.sorted_cons.mpr h⟩
      intro x hx
      rcases List.mem_cons.mp hx with rfl | hx
      · exact le_of_lt hlt
      · exact le_trans (le_of_lt hlt) (h.1 x hx)
    · rename_i hge
      rw [List.sorted_cons]
      refine ⟨?_, ih h.2⟩
      intro x hx
      rcases (mem_energyInsert x m rest).mp hx with rfl | hx
      · exact le_of_not_lt hge
      · exact h.1 x hx

/-- The scanner pass only ever appends to the accepted list, and the
appended part is a sublist of the candidate list. -/
theorem scanPass_appends (keep : List ScanMol → ScanMol → Bool) :
    ∀ (cands acc : List ScanMol),
      ∃ t, scanPass keep acc cands = acc ++ t ∧ List.Sublist t cands := by
  intro cands
  induction cands with
  | nil => intro acc; exact ⟨[], by simp [scanPass]⟩
  | cons m rest ih =>
    intro acc
    unfold scanPass
    split
    · obtain ⟨t, ht, hs⟩ := ih (acc ++ [m])
      exact ⟨m :: t, by simpa [List.append_assoc] using ht, hs.cons₂ m⟩
    · split
      · obtain ⟨t, ht, hs⟩ := ih (acc ++ [m])
        exact ⟨m :: t, by simpa [List.append_assoc] using ht, hs.cons₂ m⟩
      · obtain ⟨t, ht, hs⟩ := ih acc
        exact ⟨t, ht, hs.cons m⟩

/-- C6: the scanner consumes candidates in ascending energy order (the
ordered list built by multimap insertion is sorted); the accepted list
only grows by appending candidates (in order, as a sublist of the
candidate list); the first candidate considered on an empty accepted set
is accepted unconditionally; consequently, on an energy-sorted candidate
list, the accepted set is non-decreasing in energy — and since every
intermediate accepted set arises as such a run, at all times. -/
theorem scanner_ordering (keep : List ScanMol → ScanMol → Bool)
    (ms : List ScanMol) :
    EnergySorted (buildOrderedList ms) ∧
    (∀ cands acc, ∃ t, scanPass keep acc cands = acc ++ t ∧
      List.Sublist t cands) ∧
    (∀ m rest, ∃ t, scanPass keep [] (m :: rest) = m :: t) ∧
    (∀ cands, EnergySorted cands → EnergySorted (scanPass keep [] cands)) := by
  refine ⟨?_, scanPass_appends keep, ?_, ?_⟩
  · have key : ∀ (l : List ScanMol) (acc : List ScanMol), EnergySorted acc →
        EnergySorted (l.foldl (fun a m => energyInsert m a) acc) := by
      intro l
      induction l with
      | nil => intro acc h; exact h
      | cons m rest ih =>
        intro acc h
        exact ih (energyInsert m acc) (energyInsert_sorted m acc h)
    exact key ms [] (by simp [EnergySorted])
  · intro m rest
    obtain ⟨t, ht, _⟩ := scanPass_appends keep rest [m]
    refine ⟨t, ?_⟩
    have h1 : scanPass keep [] (m :: rest) = scanPass keep [m] rest := by
      rw [scanPass]
      norm_num
    rw [h1, ht]
    simp
  · intro cands hs
    obtain ⟨t, ht, hsub⟩ := scanPass_appends keep cands []
    rw [ht]
    simpa [EnergySorted] using List.Pairwise.sublist hsub hs

/-- Witness for `scanner_ordering`: a two-candidate sorted run keeps the
accepted set sorted. -/
theorem scanner_ordering_witness :
    EnergySorted (scanPass (fun _ _ => false) []
      [ScanMol.mk 1 0, ScanMol.mk 2 1]) :=
  (scanner_ordering (fun _ _ => false) []).2.2.2
    [ScanMol.mk 1 0, ScanMol.mk 2 1] (by decide)

/-- The scaling loop result satisfies its defining bound. -/
theorem scaleSteps_spec (l rmax : ℚ) (h : 0 < rmax) :
    |l| * (1/10 : ℚ) ^ scaleSteps l rmax ≤ rmax := by
  unfold scaleSteps
  rw [dif_pos h]
  exact Nat.find_spec (scaleSteps_exists l rmax h)

/-- After the scaling loop the magnitude is within `rmax`. -/
theorem scaleLoop_abs_le (l rmax : ℚ) (h : 0 < rmax) :
    |scaleLoop l rmax| ≤ rmax := by
  unfold scaleLoop
  rw [abs_mul, abs_pow, abs_of_nonneg (by norm_num : (0:ℚ) ≤ 1/10)]
  exact scaleSteps_spec l rmax h

/-- A multiplier already within bounds is left unchanged: the loop body
never runs. -/
theorem scaleLoop_id (l rmax : ℚ) (h : 0 < rmax) (hle : |l| ≤ rmax) :
    scaleLoop l rmax = l := by
  unfold scaleLoop scaleSteps
  rw [dif_pos h]
  have h0 : Nat.find (scaleSteps_exists l rmax h) = 0 :=
    (Nat.find_eq_zero _).mpr (by simpa using hle)
  rw [h0]
  simp

/-- A multiplier beyond the bound is first multiplied by 0.1, then the
loop continues: `scaleLoop` satisfies exactly the recurrence of
`while (std::abs(lambda) > max) lambda *= 0.1`. -/
theorem scaleLoop_step (l rmax : ℚ) (h : 0 < rmax) (hgt : rmax < |l|) :
    scaleLoop l rmax = scaleLoop (l * (1/10)) rmax := by
  have habs : |l * (1/10 : ℚ)| = |l| * (1/10) := by
    rw [abs_mul]
    norm_num
  have hshift : ∀ k : ℕ, |l * (1/10 : ℚ)| * (1/10 : ℚ) ^ k
      = |l| * (1/10 : ℚ) ^ (k+1) := by
    intro k
    rw [habs, pow_succ]
    ring
  have hfind : Nat.find (scaleSteps_exists l rmax h)
      = Nat.find (scaleSteps_exists (l * (1/10)) rmax h) + 1 := by
    rw [Nat.find_eq_iff]
    constructor
    · have hs := Nat.find_spec (scaleSteps_exists (l * (1/10)) rmax h)
      rwa [hshift] at hs
    · intro k hk
      match k with
      | 0 => simpa using not_le.mpr hgt
      | k+1 =>
        have hk2 : k < Nat.find (scaleSteps_exists (l * (1/10)) rmax h) := by
          omega
        have hm := Nat.find_min (scaleSteps_exists (l * (1/10)) rmax h) hk2
        rw [hshift] at hm
        exact hm
  unfold scaleLoop scaleSteps
  rw [dif_pos h, dif_pos h, hfind, pow_succ]
  ring

/-- The clamped scalar product has magnitude at least `rmin`. -/
theorem clampScalar_abs_ge (sp rmin : ℚ) (h : 0 < rmin) :
    rmin ≤ |clampScalar sp rmin| := by
  unfold clampScalar
  split
  · split
    · have hm : (-1 : ℚ) * rmin = -rmin := by ring
      rw [hm, abs_neg, abs_of_nonneg h.le]
    · rw [abs_of_nonneg h.le]
  · rename_i hge
    exact le_of_not_lt hge

/-- A scalar product already at magnitude `rmin` or above is untouched. -/
theorem clampScalar_id (sp rmin : ℚ) (hle : rmin ≤ |sp|) :
    clampScalar sp rmin = sp := by
  unfold clampScalar
  rw [if_neg (not_lt.mpr hle)]

/-- The position loop executes exactly `fuel` iterations (it has no
break). -/
theorem posLoop_count (geom invm : ℕ → ℚ) (tol12 tol13 rmin rmax dtinv : ℚ)
    (bonds12 bonds13 : List RattleBond) :
    ∀ (fuel : ℕ) (s : PosLoopState),
      (posLoop geom invm tol12 tol13 rmin rmax dtinv bonds12 bonds13 fuel s).2
        = fuel := by
  intro fuel
  induction fuel with
  | zero => intro s; rfl
  | succ n ih =>
    intro s
    unfold posLoop
    rw [ih]

/-- The velocity loop executes at most `fuel` iterations. -/
theorem velLoop_count (coord invm : ℕ → ℚ) (rmax : ℚ)
    (bonds12 bonds13 : List RattleBond) :
    ∀ (fuel : ℕ) (v : ℕ → ℚ) (m12 m13 : ℕ → ℤ),
      (velLoop coord invm rmax bonds12 bonds13 fuel v m12 m13).2 ≤ fuel := by
  intro fuel
  induction fuel with
  | zero => intro v m12 m13; exact le_refl 0
  | succ n ih =>
    intro v m12 m13
    unfold velLoop
    dsimp only
    split
    · exact Nat.succ_le_succ (ih _ _ _)
    · exact Nat.succ_le_succ (Nat.zero_le n)

/-- C5: in `SimpleMD::Rattle` (i) the position-constraint loop executes
exactly `rattle_maxiter` iterations and the velocity-constraint loop at
most `rattle_maxiter` iterations; (ii) a Lagrange multiplier is multiplied
by 0.1 until its magnitude is at most `rattle_max` — the loop leaves an
in-bound multiplier unchanged, shrinks an out-of-bound one by 0.1 and
recurses, and its result has magnitude at most `rattle_max`; in
particular the λ of the position update, `rattleLambda`, is so bounded;
(iii) a constraint scalar product of magnitude below `rattle_min` is
replaced by `±rattle_min` before division — the clamped value has
magnitude at least `rattle_min` and an in-bound value is untouched. -/
theorem rattle_bounds (l sp r mi mj rmin rmax : ℚ)
    (hmax : 0 < rmax) (hmin : 0 < rmin) :
    (∀ (geom invm : ℕ → ℚ) (tol12 tol13 dtinv : ℚ)
        (bonds12 bonds13 : List RattleBond) (maxiter : ℕ) (s : PosLoopState),
      (posLoop geom invm tol12 tol13 rmin rmax dtinv bonds12 bonds13 maxiter s).2
        ≤ maxiter) ∧
    (∀ (coord invm : ℕ → ℚ) (bonds12 bonds13 : List RattleBond) (maxiter : ℕ)
        (v : ℕ → ℚ) (m12 m13 : ℕ → ℤ),
      (velLoop coord invm rmax bonds12 bonds13 maxiter v m12 m13).2 ≤ maxiter) ∧
    |scaleLoop l rmax| ≤ rmax ∧
    (|l| ≤ rmax → scaleLoop l rmax = l) ∧
    (rmax < |l| → scaleLoop l rmax = scaleLoop (l * (1/10)) rmax) ∧
    |rattleLambda r mi mj sp rmin rmax| ≤ rmax ∧
    rmin ≤ |clampScalar sp rmin| ∧
    (rmin ≤ |sp| → clampScalar sp rmin = sp) := by
  refine ⟨?_, ?_, scaleLoop_abs_le l rmax hmax, scaleLoop_id l rmax hmax,
    scaleLoop_step l rmax hmax, scaleLoop_abs_le _ rmax hmax,
    clampScalar_abs_ge sp rmin hmin, clampScalar_id sp rmin⟩
  · intro geom invm tol12 tol13 dtinv bonds12 bonds13 maxiter s
    exact le_of_eq (posLoop_count geom invm tol12 tol13 rmin rmax dtinv
      bonds12 bonds13 maxiter s)
  · intro coord invm bonds12 bonds13 maxiter v m12 m13
    exact velLoop_count coord invm rmax bonds12 bonds13 maxiter v m12 m13

/-- Witness for `rattle_bounds` at `rattle_max = rattle_min = 1`. -/
theorem rattle_bounds_witness :
    |scaleLoop 5 1| ≤ 1 ∧ (1 : ℚ) ≤ |clampScalar 3 1| ∧
    |rattleLambda 1 1 1 3 1 1| ≤ 1 :=
  ⟨(rattle_bounds 5 3 1 1 1 1 1 (by decide) (by decide)).2.2.1,
   (rattle_bounds 5 3 1 1 1 1 1 (by decide) (by decide)).2.2.2.2.2.2.1,
   (rattle_bounds 5 3 1 1 1 1 1 (by decide) (by decide)).2.2.2.2.2.1⟩

end Curcuma
